import Mathlib

/-!
Formal model of the flip.gg lootbox toolkit core (src/core/models.py,
src/calculator/expected_value.py, src/simulator/monte_carlo.py,
src/optimizer/probability_optimizer.py).

Python floats are modelled by exact rationals (ℚ); the square root used by
the sample standard deviation is irrational in general and is therefore
threaded as an explicit function parameter where it occurs.  Python
exceptions are modelled by `Except String`; external pseudo-random sources
(`random.random`, `np.random.*`) are threaded as explicit state-transition
oracles.
-/

/-- Rarity tiers, from `RarityTier` in src/core/models.py. -/
inductive RarityTier where
  | common
  | uncommon
  | rare
  | epic
  | legendary
  | mythic
deriving DecidableEq, Repr

/-- One lootbox item, from `LootboxItem` in src/core/models.py.
The optional free-text description field has no semantic effect and is
omitted. -/
structure LootboxItem where
  name : String
  value : ℚ
  rarity : RarityTier
  probability : ℚ
deriving DecidableEq, Repr

/-- Per-item pydantic validation of `LootboxItem`: value strictly positive,
probability in [0, 1]. -/
def validItem (i : LootboxItem) : Bool :=
  decide (0 < i.value ∧ 0 ≤ i.probability ∧ i.probability ≤ 1)

/-- Construction of a `LootboxItem`, raising a validation error exactly when
the pydantic validators in src/core/models.py would. -/
def mkLootboxItem (name : String) (value : ℚ) (rarity : RarityTier)
    (probability : ℚ) : Except String LootboxItem :=
  if validItem ⟨name, value, rarity, probability⟩ then
    .ok ⟨name, value, rarity, probability⟩
  else
    .error "ValidationError: invalid LootboxItem"

/-- A lootbox: cost plus item list, from `Lootbox` in src/core/models.py. -/
structure Lootbox where
  name : String
  cost : ℚ
  items : List LootboxItem
deriving DecidableEq, Repr

/-- Total probability mass of an item list. -/
def totalProbability (items : List LootboxItem) : ℚ :=
  (items.map (·.probability)).sum

/-- The `validate_items` validator of `Lootbox`: non-empty item list, total
probability within 1e-6 of 1.0, and pairwise distinct item names. -/
def validateItems (items : List LootboxItem) : Bool :=
  !items.isEmpty &&
    decide (|totalProbability items - 1| ≤ 1/1000000) &&
    decide ((items.map (·.name)).Nodup)

/-- The `validate_cost` validator of `Lootbox`: cost within [0.50, 1000.00]. -/
def validateCost (c : ℚ) : Bool :=
  decide (1/2 ≤ c ∧ c ≤ 1000)

/-- Construction of a `Lootbox` (the items themselves were validated at
their own construction), raising exactly when the pydantic validators
would. -/
def mkLootbox (name : String) (cost : ℚ) (items : List LootboxItem) :
    Except String Lootbox :=
  if validateItems items && validateCost cost then
    .ok ⟨name, cost, items⟩
  else
    .error "ValidationError: invalid Lootbox"

/-- `Lootbox.get_expected_value`: Σ value·probability over the items. -/
def get_expected_value (lb : Lootbox) : ℚ :=
  (lb.items.map (fun i => i.value * i.probability)).sum

/-- `Lootbox.get_house_edge`: (cost − expected value) / cost. -/
def get_house_edge (lb : Lootbox) : ℚ :=
  (lb.cost - get_expected_value lb) / lb.cost

/-- `Lootbox.normalize_probabilities`: rescale every probability by the
total mass when that total is positive; otherwise leave the items
unchanged. -/
def normalize_probabilities (items : List LootboxItem) : List LootboxItem :=
  let total_prob := totalProbability items
  if 0 < total_prob then
    items.map fun i => { i with probability := i.probability / total_prob }
  else
    items

/-- Minimum of a list of rationals (head-seeded fold; 0 on the empty list,
which never occurs under validation). -/
def listMinQ : List ℚ → ℚ
  | [] => 0
  | x :: xs => xs.foldl min x

/-- Maximum of a list of rationals (head-seeded fold; 0 on the empty list,
which never occurs under validation). -/
def listMaxQ : List ℚ → ℚ
  | [] => 0
  | x :: xs => xs.foldl max x

/-- Placeholder item used as an out-of-range default for list indexing in
theorem statements. -/
def dummyItem : LootboxItem :=
  ⟨"", 1, .common, 0⟩

/-- The five-item demonstration box of the specification's end-to-end
scenario (cost 2.00; expected value 0.96). -/
def demoBox : Lootbox :=
  ⟨"Flip Box", 2,
    [⟨"A", 1/10, .common, 1/2⟩,
     ⟨"B", 1/2, .uncommon, 1/4⟩,
     ⟨"C", 3/2, .rare, 3/20⟩,
     ⟨"D", 4, .epic, 2/25⟩,
     ⟨"E", 12, .legendary, 1/50⟩]⟩

/-! Calculator: `ExpectedValueCalculator.calculate_value_percentiles` of
src/calculator/expected_value.py. -/

/-- Running cumulative sums starting from an accumulator, as produced by
`np.cumsum` (with `acc = 0`). -/
def cumFrom (acc : ℚ) : List ℚ → List ℚ
  | [] => []
  | p :: ps => (acc + p) :: cumFrom (acc + p) ps

/-- `np.cumsum` on a list of rationals. -/
def cumsum (ps : List ℚ) : List ℚ :=
  cumFrom 0 ps

/-- Python tuple comparison on (value, probability) pairs, as used by
`sorted(zip(values, probabilities))`: lexicographic order. -/
def pairLE (a b : ℚ × ℚ) : Prop :=
  a.1 < b.1 ∨ (a.1 = b.1 ∧ a.2 ≤ b.2)

instance : DecidableRel pairLE := fun a b =>
  inferInstanceAs (Decidable (a.1 < b.1 ∨ (a.1 = b.1 ∧ a.2 ≤ b.2)))

instance : IsTotal (ℚ × ℚ) pairLE where
  total a b := by
    rcases lt_trichotomy a.1 b.1 with h | h | h
    · exact Or.inl (Or.inl h)
    · rcases le_total a.2 b.2 with h2 | h2
      · exact Or.inl (Or.inr ⟨h, h2⟩)
      · exact Or.inr (Or.inr ⟨h.symm, h2⟩)
    · exact Or.inr (Or.inl h)

instance : IsTrans (ℚ × ℚ) pairLE where
  trans a b c hab hbc := by
    rcases hab with h1 | ⟨e1, l1⟩
    · rcases hbc with h2 | ⟨e2, _⟩
      · exact Or.inl (h1.trans h2)
      · exact Or.inl (e2 ▸ h1)
    · rcases hbc with h2 | ⟨e2, l2⟩
      · exact Or.inl (e1 ▸ h2)
      · exact Or.inr ⟨e1.trans e2, l1.trans l2⟩

/-- Python's `sorted` on (value, probability) pairs (stable, lexicographic
tuple order). -/
def sortPairs (l : List (ℚ × ℚ)) : List (ℚ × ℚ) :=
  List.insertionSort pairLE l

/-- Semantics of `np.searchsorted(a, v, side='right')` on a sorted array:
index of the first element strictly greater than `v`, or the array length
when no element exceeds `v`.  Modelled by the left-to-right scan, which
coincides with numpy's binary search exactly on sorted input (the call
sites only ever pass cumulative sums of non-negative probabilities). -/
def searchsortedRight (a : List ℚ) (v : ℚ) : Nat :=
  a.findIdx fun c => decide (v < c)

/-- Body of the per-target loop of `calculate_value_percentiles`:
`idx = np.searchsorted(cumulative_probs, p / 100, side='right')`, then
`sorted_values[idx]` when in range and `sorted_values[-1]` otherwise. -/
def percTargetValue (sorted_values cumulative_probs : List ℚ) (p : ℚ) : ℚ :=
  let target_prob := p / 100
  let idx := searchsortedRight cumulative_probs target_prob
  if idx < sorted_values.length then sorted_values.getD idx 0
  else sorted_values.getD (sorted_values.length - 1) 0

/-- `ExpectedValueCalculator.calculate_value_percentiles`: sort the
(value, probability) pairs, form cumulative probabilities, and look up each
requested percentile.  The Python dict keyed by percentile label is
modelled as the list of (percentile, value) pairs in request order. -/
def calculate_value_percentiles (lb : Lootbox) (percentiles : List ℚ) :
    List (ℚ × ℚ) :=
  let values := lb.items.map (·.value)
  let probabilities := lb.items.map (·.probability)
  let sorted_data := sortPairs (values.zip probabilities)
  let sorted_values := sorted_data.map Prod.fst
  let cumulative_probs := cumsum (sorted_data.map Prod.snd)
  percentiles.map fun p => (p, percTargetValue sorted_values cumulative_probs p)

/-- Spec-side reading of the percentile rule, written from the
specification sentence: scan the value-sorted items accumulating
probability mass and return the value of the first item whose cumulative
mass strictly exceeds the target, if any. -/
def firstMassExceeding (t : ℚ) : List (ℚ × ℚ) → ℚ → Option ℚ
  | [], _ => none
  | (v, pr) :: rest, acc =>
      if t < acc + pr then some v else firstMassExceeding t rest (acc + pr)

/-- Spec-side percentile value: the first value (in sorted order) whose
cumulative mass strictly exceeds p/100, and the maximum item value when no
cumulative mass does. -/
def specPercentileValue (lb : Lootbox) (p : ℚ) : ℚ :=
  let sorted_data :=
    sortPairs ((lb.items.map (·.value)).zip (lb.items.map (·.probability)))
  match firstMassExceeding (p / 100) sorted_data 0 with
  | some v => v
  | none => listMaxQ (lb.items.map (·.value))

/-! Optimizer: `ProbabilityOptimizer.find_optimal_cost` of
src/optimizer/probability_optimizer.py. -/

/-- The expected value `sum(item.value * prob for item, prob in
zip(items, probabilities))` computed at the head of `find_optimal_cost`. -/
def zipExpectedValue (items : List LootboxItem) (probabilities : List ℚ) : ℚ :=
  ((items.zip probabilities).map fun pr => pr.1.value * pr.2).sum

/-- `ProbabilityOptimizer.find_optimal_cost`: closed-form break-even cost
`EV / (1 - target)` clamped into [min_cost, max_cost], with a feasibility
flag; targets of 100% or more short-circuit to (max_cost, infeasible). -/
def find_optimal_cost (items : List LootboxItem) (probabilities : List ℚ)
    (target_house_edge min_cost max_cost : ℚ) : ℚ × Bool :=
  let expected_value := zipExpectedValue items probabilities
  if 1 ≤ target_house_edge then (max_cost, false)
  else
    let optimal_cost := expected_value / (1 - target_house_edge)
    if min_cost ≤ optimal_cost ∧ optimal_cost ≤ max_cost then
      (optimal_cost, true)
    else
      (max min_cost (min max_cost optimal_cost), false)

/-! Simulator: `MonteCarloSimulator` of src/simulator/monte_carlo.py.
The global `random` module state is modelled by an explicit state type σ
with a transition function `next : σ → ℚ × σ` standing for
`random.random()`. -/

/-- The cumulative scan loop of `simulate_single_opening`: accumulate
probability mass over the items in stored order and return the first item
whose cumulative mass reaches the drawn number. -/
def pickItem : List LootboxItem → ℚ → ℚ → Option LootboxItem
  | [], _, _ => none
  | item :: rest, rand, cumulative_prob =>
      let c := cumulative_prob + item.probability
      if rand ≤ c then some item else pickItem rest rand c

/-- `MonteCarloSimulator.simulate_single_opening`: scan with the drawn
number, falling back to the last item; indexing `items[-1]` on an empty
item list raises. -/
def simulate_single_opening (lb : Lootbox) (rand : ℚ) :
    Except String LootboxItem :=
  match pickItem lb.items rand 0 with
  | some item => .ok item
  | none =>
      match lb.items.getLast? with
      | some item => .ok item
      | none => .error "IndexError: list index out of range"

/-- `MonteCarloSimulator.__init__`: seeding with `some s` overwrites the
global random state with the seeded state; an unseeded construction leaves
the global state untouched. -/
def mkSimulator {σ : Type} (seedFn : Nat → σ) (seed : Option Nat) (g : σ) : σ :=
  match seed with
  | some s => seedFn s
  | none => g

/-- The simulation loop of `simulate_multiple_openings`: n single openings
in sequence, threading the random state. -/
def drawItems {σ : Type} (next : σ → ℚ × σ) (lb : Lootbox) :
    Nat → σ → Except String (List LootboxItem × σ)
  | 0, g => .ok ([], g)
  | n + 1, g =>
      let (u, g') := next g
      match simulate_single_opening lb u with
      | .error e => .error e
      | .ok item =>
          match drawItems next lb n g' with
          | .error e => .error e
          | .ok (rest, g'') => .ok (item :: rest, g'')

/-- `MonteCarloSimulator._get_value_bin`: bucket an item value into a fixed
monetary range label. -/
def getValueBin (value : ℚ) : String :=
  if value < 1/4 then "$0.00-$0.25"
  else if value < 1/2 then "$0.25-$0.50"
  else if value < 1 then "$0.50-$1.00"
  else if value < 2 then "$1.00-$2.00"
  else if value < 5 then "$2.00-$5.00"
  else if value < 10 then "$5.00-$10.00"
  else if value < 25 then "$10.00-$25.00"
  else if value < 50 then "$25.00-$50.00"
  else if value < 100 then "$50.00-$100.00"
  else "$100.00+"

/-- Sorting a list of rationals ascending, as `statistics.median` and
`np.percentile` do internally. -/
def sortQ (xs : List ℚ) : List ℚ :=
  List.insertionSort (fun a b : ℚ => a ≤ b) xs

/-- `statistics.median`: middle element of the sorted data for odd length,
mean of the two middle elements for even length; raises on empty data. -/
def statMedian (xs : List ℚ) : Except String ℚ :=
  if xs.isEmpty then .error "StatisticsError: no median for empty data"
  else
    let s := sortQ xs
    let n := xs.length
    if n % 2 = 1 then .ok (s.getD (n / 2) 0)
    else .ok ((s.getD (n / 2 - 1) 0 + s.getD (n / 2) 0) / 2)

/-- Arithmetic mean of a list of rationals (`statistics.mean`). -/
def listMean (xs : List ℚ) : ℚ :=
  xs.sum / (xs.length : ℚ)

/-- Sample variance (the square of `statistics.stdev`): Σ (x − mean)² over
(n − 1). -/
def sampleVariance (xs : List ℚ) : ℚ :=
  let m := listMean xs
  (xs.map fun x => (x - m) ^ 2).sum / ((xs.length : ℚ) - 1)

/-- The record produced by `simulate_multiple_openings` (the
`SimulationResult` pydantic model).  The two occurrence-count dicts are
modelled as count functions. -/
structure SimulationResult where
  lootbox_name : String
  num_simulations : Nat
  total_cost : ℚ
  total_value_received : ℚ
  average_value_per_box : ℚ
  median_value_per_box : ℚ
  std_deviation : ℚ
  profit_probability : ℚ
  break_even_probability : ℚ
  house_edge_actual : ℚ
  house_edge_theoretical : ℚ
  rarity_distribution : RarityTier → Nat
  value_distribution : String → Nat

/-- `MonteCarloSimulator.simulate_multiple_openings`: run n single
openings, then aggregate empirical statistics.  `statistics.mean` raises on
an empty sample (n = 0); the sample standard deviation is 0 for fewer than
two draws and otherwise applies the supplied square-root function to the
sample variance. -/
def simulate_multiple_openings {σ : Type} (next : σ → ℚ × σ) (sqrtFn : ℚ → ℚ)
    (lb : Lootbox) (num_simulations : Nat) (g : σ) :
    Except String (SimulationResult × σ) :=
  match drawItems next lb num_simulations g with
  | .error e => .error e
  | .ok (obtained_items, g') =>
      let obtained_values := obtained_items.map (·.value)
      if obtained_values.isEmpty then
        .error "StatisticsError: mean requires at least one data point"
      else
        match statMedian obtained_values with
        | .error e => .error e
        | .ok median_value =>
            let total_cost := (num_simulations : ℚ) * lb.cost
            let total_value := obtained_values.sum
            let average_value := listMean obtained_values
            let std_deviation :=
              if 1 < obtained_values.length then sqrtFn (sampleVariance obtained_values)
              else 0
            let profitable_outcomes :=
              (obtained_values.filter fun v => decide (lb.cost < v)).length
            let break_even_outcomes :=
              (obtained_values.filter fun v => decide (lb.cost ≤ v)).length
            .ok
              ({ lootbox_name := lb.name
                 num_simulations := num_simulations
                 total_cost := total_cost
                 total_value_received := total_value
                 average_value_per_box := average_value
                 median_value_per_box := median_value
                 std_deviation := std_deviation
                 profit_probability := (profitable_outcomes : ℚ) / (num_simulations : ℚ)
                 break_even_probability := (break_even_outcomes : ℚ) / (num_simulations : ℚ)
                 house_edge_actual := (total_cost - total_value) / total_cost
                 house_edge_theoretical := get_house_edge lb
                 rarity_distribution := fun r =>
                   (obtained_items.filter fun i => decide (i.rarity = r)).length
                 value_distribution := fun b =>
                   (obtained_items.filter fun i => decide (getValueBin i.value = b)).length },
               g')

/-- `np.percentile` with the default linear interpolation on a non-empty
sample; raises on an empty sample. -/
def npPercentile (xs : List ℚ) (p : ℚ) : Except String ℚ :=
  if xs.isEmpty then
    .error "IndexError: cannot do a non-empty take from an empty axes."
  else
    let s := sortQ xs
    let n := s.length
    let rank := p / 100 * ((n : ℚ) - 1)
    let i := rank.floor.toNat
    let frac := rank - (rank.floor : ℚ)
    if i + 1 < n then .ok (s.getD i 0 + frac * (s.getD (i + 1) 0 - s.getD i 0))
    else .ok (s.getD (n - 1) 0)

/-- The batch loop of `calculate_confidence_intervals`: `num_batches`
simulation runs of 1000 openings each, threading the random state. -/
def runBatches {σ : Type} (next : σ → ℚ × σ) (sqrtFn : ℚ → ℚ) (lb : Lootbox) :
    Nat → σ → Except String (List SimulationResult × σ)
  | 0, g => .ok ([], g)
  | k + 1, g =>
      match simulate_multiple_openings next sqrtFn lb 1000 g with
      | .error e => .error e
      | .ok (r, g') =>
          match runBatches next sqrtFn lb k g' with
          | .error e => .error e
          | .ok (rs, g'') => .ok (r :: rs, g'')

/-- The per-metric interval loop of `calculate_confidence_intervals`:
lower and upper `np.percentile` of each metric's batch values. -/
def intervalsFor : List (String × List ℚ) → ℚ → ℚ →
    Except String (List (String × (ℚ × ℚ)))
  | [], _, _ => .ok []
  | (metricName, vs) :: rest, lowerP, upperP =>
      match npPercentile vs lowerP with
      | .error e => .error e
      | .ok lower_bound =>
          match npPercentile vs upperP with
          | .error e => .error e
          | .ok upper_bound =>
              match intervalsFor rest lowerP upperP with
              | .error e => .error e
              | .ok out => .ok ((metricName, (lower_bound, upper_bound)) :: out)

/-- `MonteCarloSimulator.calculate_confidence_intervals`: partition the
requested draws into batches of 1000 (integer division), collect four
metrics per batch, and report the (α/2, 1 − α/2) percentile band of each
metric across batches. -/
def calculate_confidence_intervals {σ : Type} (next : σ → ℚ × σ)
    (sqrtFn : ℚ → ℚ) (lb : Lootbox) (num_simulations : Nat)
    (confidence_level : ℚ) (g : σ) :
    Except String (List (String × (ℚ × ℚ))) :=
  let batch_size := 1000
  let num_batches := num_simulations / batch_size
  match runBatches next sqrtFn lb num_batches g with
  | .error e => .error e
  | .ok (rs, _) =>
      let alpha := 1 - confidence_level
      let lowerP := alpha / 2 * 100
      let upperP := (1 - alpha / 2) * 100
      intervalsFor
        [("expected_values", rs.map (·.average_value_per_box)),
         ("house_edges", rs.map (·.house_edge_actual)),
         ("std_deviations", rs.map (·.std_deviation)),
         ("profit_probabilities", rs.map (·.profit_probability))]
        lowerP upperP

/-- True exactly on the error constructor of `Except`. -/
def isError {α : Type} : Except String α → Bool
  | .error _ => true
  | .ok _ => false

/-! Optimizer: `ProbabilityOptimizer` of
src/optimizer/probability_optimizer.py.  The scipy SLSQP solver is an
external collaborator and is modelled as an oracle mapping (initial guess,
lower bounds, upper bounds) to either a raised fault or a solver result
record; the numpy random source of the genetic algorithm is modelled by an
oracle of state-transition functions, with numpy's own deterministic error
conditions coded at the call wrappers. -/

/-- The fields of a `scipy.optimize.minimize` result that the optimizer
reads: success flag, solution vector, status message, iteration count. -/
structure SolverResult where
  success : Bool
  x : List ℚ
  message : String
  nit : Nat
deriving DecidableEq, Repr

/-- The `OptimizationResult` dataclass. -/
structure OptimizationResult where
  success : Bool
  optimized_lootbox : Option Lootbox
  original_house_edge : ℚ
  optimized_house_edge : ℚ
  original_expected_value : ℚ
  optimized_expected_value : ℚ
  optimization_message : String
  iterations : Nat
deriving DecidableEq, Repr

/-- Per-tier probability bounds and cost/house-edge bands
(`OptimizationConstraints` in src/core/models.py); the two tier maps are
total functions on the closed rarity set. -/
structure OptimizationConstraints where
  min_cost : ℚ
  max_cost : ℚ
  target_house_edge : Option ℚ
  min_house_edge : ℚ
  max_house_edge : ℚ
  minProbPerTier : RarityTier → ℚ
  maxProbPerTier : RarityTier → ℚ

/-- Default minimum probability mass per rarity tier. -/
def defaultMinProbPerTier : RarityTier → ℚ
  | .common => 3/10
  | .uncommon => 1/10
  | .rare => 1/100
  | .epic => 1/1000
  | .legendary => 1/10000
  | .mythic => 1/100000

/-- Default maximum probability mass per rarity tier. -/
def defaultMaxProbPerTier : RarityTier → ℚ
  | .common => 8/10
  | .uncommon => 4/10
  | .rare => 1/10
  | .epic => 1/20
  | .legendary => 1/100
  | .mythic => 1/1000

/-- The default-constructed `OptimizationConstraints()`. -/
def defaultConstraints : OptimizationConstraints :=
  ⟨1/2, 1000, none, 1/20, 1/2, defaultMinProbPerTier, defaultMaxProbPerTier⟩

/-- The per-item lower bounds handed to the solver, looked up from the
constraint map by each item's rarity tag. -/
def tierLowerBounds (cons : OptimizationConstraints) (items : List LootboxItem) :
    List ℚ :=
  items.map fun item => cons.minProbPerTier item.rarity

/-- The per-item upper bounds handed to the solver. -/
def tierUpperBounds (cons : OptimizationConstraints) (items : List LootboxItem) :
    List ℚ :=
  items.map fun item => cons.maxProbPerTier item.rarity

/-- The optimized-item construction loop: a `LootboxItem` is rebuilt (and
revalidated) per input item with the solver's i-th probability; indexing
past the end of the solution vector raises. -/
def buildItems : List LootboxItem → List ℚ → Except String (List LootboxItem)
  | [], _ => .ok []
  | _ :: _, [] => .error "IndexError: index out of bounds"
  | item :: rest, p :: ps =>
      match mkLootboxItem item.name item.value item.rarity p with
      | .error e => .error e
      | .ok newItem =>
          match buildItems rest ps with
          | .error e => .error e
          | .ok more => .ok (newItem :: more)

/-- `ProbabilityOptimizer.optimize_for_house_edge`: everything from the
solver call to the construction of the optimized lootbox sits inside a
try/except that converts any raised fault into a failed result, so the
function is total.  The solver oracle receives the initial guess (the
current probabilities) and the per-tier bound vectors. -/
def optimize_for_house_edge (lb : Lootbox) (target_house_edge : ℚ)
    (cons : OptimizationConstraints)
    (solverFn : List ℚ → List ℚ → List ℚ → Except String SolverResult) :
    OptimizationResult :=
  let original_ev := get_expected_value lb
  let original_he := get_house_edge lb
  let initial_probs := lb.items.map (·.probability)
  let attempt : Except String OptimizationResult :=
    match solverFn initial_probs (tierLowerBounds cons lb.items) (tierUpperBounds cons lb.items) with
    | .error e => .error e
    | .ok result =>
        if result.success then
          match buildItems lb.items result.x with
          | .error e => .error e
          | .ok optimized_items =>
              match mkLootbox (lb.name ++ " (Optimized)") lb.cost optimized_items with
              | .error e => .error e
              | .ok optimized_lootbox =>
                  .ok
                    { success := true
                      optimized_lootbox := some optimized_lootbox
                      original_house_edge := original_he
                      optimized_house_edge := get_house_edge optimized_lootbox
                      original_expected_value := original_ev
                      optimized_expected_value := get_expected_value optimized_lootbox
                      optimization_message := "Successfully optimized"
                      iterations := result.nit }
        else
          .ok
            { success := false
              optimized_lootbox := none
              original_house_edge := original_he
              optimized_house_edge := original_he
              original_expected_value := original_ev
              optimized_expected_value := original_ev
              optimization_message := "Optimization failed: " ++ result.message
              iterations := result.nit }
  match attempt with
  | .ok r => r
  | .error e =>
      { success := false
        optimized_lootbox := none
        original_house_edge := original_he
        optimized_house_edge := original_he
        original_expected_value := original_ev
        optimized_expected_value := original_ev
        optimization_message := "Optimization error: " ++ e
        iterations := 0 }

/-- State-and-exception monad threading the numpy global random state, in
which the genetic algorithm runs. -/
abbrev MCState (σ : Type) (α : Type) : Type :=
  StateT σ (Except String) α

/-- Lift a pure state transition (a numpy sampling call that cannot
raise). -/
def liftS {σ α : Type} (f : σ → α × σ) : MCState σ α :=
  fun g => .ok (f g)

/-- Lift a fallible but stateless computation. -/
def liftE {σ α : Type} (e : Except String α) : MCState σ α :=
  fun g =>
    match e with
    | .error msg => .error msg
    | .ok a => .ok (a, g)

/-- Raise a Python exception inside the state monad. -/
def failS {σ α : Type} (msg : String) : MCState σ α :=
  fun _ => .error msg

/-- Oracle for the numpy sampling primitives the genetic algorithm uses.
Each field is the data-producing part of one `np.random` call; the error
conditions numpy itself checks deterministically are coded in the wrappers
below, not left to the oracle. -/
structure NpRandom (σ : Type) where
  exponential : ℚ → Nat → σ → List ℚ × σ
  uniform : σ → ℚ × σ
  pick : Nat → Nat → σ → List Nat × σ
  randintBelow : Nat → Nat → σ → Nat × σ
  normal : ℚ → ℚ → Nat → σ → List ℚ × σ

/-- `np.random.choice(n, k, replace=False)`: raises when asked for a
sample larger than the population. -/
def npChoice {σ : Type} (rng : NpRandom σ) (n k : Nat) : MCState σ (List Nat) :=
  if k ≤ n ∧ 0 < n then liftS (rng.pick n k)
  else failS "ValueError: cannot take a larger sample than population"

/-- `np.random.randint(low, high)`: raises when low ≥ high. -/
def npRandint {σ : Type} (rng : NpRandom σ) (low high : Nat) : MCState σ Nat :=
  if low < high then liftS (rng.randintBelow low high)
  else failS "ValueError: low >= high"

/-- `np.clip(x, lo, hi)`. -/
def npClip (x lo hi : ℚ) : ℚ :=
  min hi (max lo x)

/-- `np.dot` on two rational vectors. -/
def npDot (a b : List ℚ) : ℚ :=
  ((a.zip b).map fun pr => pr.1 * pr.2).sum

/-- `np.argmax`: index of the first maximal element; raises on an empty
sequence. -/
def npArgmaxGo : List ℚ → ℚ → Nat → Nat → Nat
  | [], _, bestIdx, _ => bestIdx
  | y :: ys, bestVal, bestIdx, curIdx =>
      if bestVal < y then npArgmaxGo ys y curIdx (curIdx + 1)
      else npArgmaxGo ys bestVal bestIdx (curIdx + 1)

/-- `np.argmax` over a list, first-occurrence semantics. -/
def npArgmax : List ℚ → Except String Nat
  | [] => .error "ValueError: attempt to get argmax of an empty sequence"
  | x :: xs => .ok (npArgmaxGo xs x 0 1)

/-- Elementwise division of a vector by its own sum
(`probs / np.sum(probs)`). -/
def normalizeVec (v : List ℚ) : List ℚ :=
  let s := v.sum
  v.map (· / s)

/-- The per-item `np.clip` loop of the population initializer: clamp each
probability into its rarity tier's [min, max] band. -/
def clipPerTier (cons : OptimizationConstraints) (items : List LootboxItem)
    (probs : List ℚ) : List ℚ :=
  (probs.zip items).map fun pr =>
    npClip pr.1 (cons.minProbPerTier pr.2.rarity) (cons.maxProbPerTier pr.2.rarity)

/-- One random individual of the initial population: exponential draws
normalized to the simplex, clamped per tier, renormalized. -/
def gaInitIndividual {σ : Type} (rng : NpRandom σ)
    (cons : OptimizationConstraints) (items : List LootboxItem) :
    MCState σ (List ℚ) := do
  let draws ← liftS (rng.exponential 1 items.length)
  let probs := normalizeVec draws
  let probs := clipPerTier cons items probs
  pure (normalizeVec probs)

/-- The population-initialization loop. -/
def gaInitPopulation {σ : Type} (rng : NpRandom σ)
    (cons : OptimizationConstraints) (items : List LootboxItem) :
    Nat → MCState σ (List (List ℚ))
  | 0 => pure []
  | k + 1 => do
      let p ← gaInitIndividual rng cons items
      let rest ← gaInitPopulation rng cons items k
      pure (p :: rest)

/-- The genetic fitness function: negative absolute deviation of the house
edge from the target. -/
def gaFitness (item_values : List ℚ) (cost target_house_edge : ℚ)
    (probabilities : List ℚ) : ℚ :=
  let expected_value := npDot probabilities item_values
  let house_edge := (cost - expected_value) / cost
  Neg.neg |house_edge - target_house_edge|

/-- The tournament-selection loop: for each slot draw 3 distinct indices,
keep the fittest. -/
def gaSelect {σ : Type} (rng : NpRandom σ) (fitness_scores : List ℚ)
    (population : List (List ℚ)) (population_size : Nat) :
    Nat → MCState σ (List (List ℚ))
  | 0 => pure []
  | k + 1 => do
      let tournament_indices ← npChoice rng population_size 3
      let tournament_fitness := tournament_indices.map fun i => fitness_scores.getD i 0
      let w ← liftE (npArgmax tournament_fitness)
      let winner_idx := tournament_indices.getD w 0
      let rest ← gaSelect rng fitness_scores population population_size k
      pure (population.getD winner_idx [] :: rest)

/-- The mutation step at one index: with probability `mutation_rate` add
Gaussian noise, clamp into [0.001, 1], renormalize. -/
def gaMutateAt {σ : Type} (rng : NpRandom σ) (n_items : Nat)
    (mutation_rate : ℚ) (j : Nat) (pop : List (List ℚ)) :
    MCState σ (List (List ℚ)) := do
  if j < pop.length then do
    let (r : ℚ) ← liftS rng.uniform
    if r < mutation_rate then do
      let noise ← liftS (rng.normal 0 (1/100) n_items)
      let v := (pop.getD j []).zipWith (· + ·) noise
      let v := v.map fun x => npClip x (1/1000) 1
      pure (pop.set j (normalizeVec v))
    else pure pop
  else pure pop

/-- The crossover-and-mutation body for one index pair (i, i+1): with
probability 0.8 single-point crossover with renormalization, then the two
mutation steps. -/
def gaPairStep {σ : Type} (rng : NpRandom σ) (n_items : Nat)
    (mutation_rate : ℚ) (i : Nat) (pop : List (List ℚ)) :
    MCState σ (List (List ℚ)) := do
  let (r : ℚ) ← liftS rng.uniform
  let pop ←
    if r < 8/10 then do
      let crossover_point ← npRandint rng 1 n_items
      let a := pop.getD i []
      let b := pop.getD (i + 1) []
      let child1 := normalizeVec (a.take crossover_point ++ b.drop crossover_point)
      let child2 := normalizeVec (b.take crossover_point ++ a.drop crossover_point)
      pure ((pop.set i child1).set (i + 1) child2)
    else pure pop
  let pop ← gaMutateAt rng n_items mutation_rate i pop
  gaMutateAt rng n_items mutation_rate (i + 1) pop

/-- Fold of `gaPairStep` over the even indices below population_size − 1
(Python's `range(0, population_size - 1, 2)`). -/
def gaCrossMutFold {σ : Type} (rng : NpRandom σ) (n_items : Nat)
    (mutation_rate : ℚ) : List Nat → List (List ℚ) → MCState σ (List (List ℚ))
  | [], pop => pure pop
  | i :: is, pop => do
      let pop' ← gaPairStep rng n_items mutation_rate i pop
      gaCrossMutFold rng n_items mutation_rate is pop'

/-- One generation: score the population, track the best-ever individual,
tournament selection, then crossover and mutation. -/
def gaGeneration {σ : Type} (rng : NpRandom σ) (n_items : Nat)
    (item_values : List ℚ) (cost target_house_edge mutation_rate : ℚ)
    (population_size : Nat)
    (st : List (List ℚ) × Option (List ℚ × ℚ)) :
    MCState σ (List (List ℚ) × Option (List ℚ × ℚ)) := do
  let (population, best) := st
  let fitness_scores := population.map (gaFitness item_values cost target_house_edge)
  let gen_best_idx ← liftE (npArgmax fitness_scores)
  let genBestFit := fitness_scores.getD gen_best_idx 0
  let best :=
    match best with
    | none => some (population.getD gen_best_idx [], genBestFit)
    | some pr =>
        if pr.2 < genBestFit then some (population.getD gen_best_idx [], genBestFit)
        else some pr
  let newPop ← gaSelect rng fitness_scores population population_size population_size
  let evenIdxs :=
    (List.range population_size).filter fun i => i % 2 == 0 && i + 1 < population_size
  let newPop ← gaCrossMutFold rng n_items mutation_rate evenIdxs newPop
  pure (newPop, best)

/-- The generation loop. -/
def gaGenLoop {σ : Type} (rng : NpRandom σ) (n_items : Nat)
    (item_values : List ℚ) (cost target_house_edge mutation_rate : ℚ)
    (population_size : Nat) :
    Nat → List (List ℚ) × Option (List ℚ × ℚ) →
    MCState σ (List (List ℚ) × Option (List ℚ × ℚ))
  | 0, st => pure st
  | k + 1, st => do
      let st' ← gaGeneration rng n_items item_values cost target_house_edge
        mutation_rate population_size st
      gaGenLoop rng n_items item_values cost target_house_edge mutation_rate
        population_size k st'

/-- `ProbabilityOptimizer.genetic_algorithm_optimization`.  Unlike the
gradient path, no try/except surrounds the body: any raised fault
propagates to the caller, and after zero generations the best individual
is still `None`, so subscripting it raises. -/
def genetic_algorithm_optimization {σ : Type} (rng : NpRandom σ)
    (items : List LootboxItem) (cost target_house_edge : ℚ)
    (population_size generations : Nat) (mutation_rate : ℚ)
    (cons : OptimizationConstraints) : MCState σ OptimizationResult := do
  let item_values := items.map (·.value)
  let population ← gaInitPopulation rng cons items population_size
  let final ← gaGenLoop rng items.length item_values cost target_house_edge
    mutation_rate population_size generations (population, none)
  match final.2 with
  | none => failS "TypeError: NoneType is not subscriptable"
  | some bestPair => do
      let optimized_items ← liftE (buildItems items bestPair.1)
      let optimized_lootbox ← liftE (mkLootbox "GA Optimized Box" cost optimized_items)
      let equal_prob : ℚ := 1 / (items.length : ℚ)
      let original_items ← liftE (buildItems items (List.replicate items.length equal_prob))
      let original_lootbox ← liftE (mkLootbox "Original" cost original_items)
      pure
        { success := true
          optimized_lootbox := some optimized_lootbox
          original_house_edge := get_house_edge original_lootbox
          optimized_house_edge := get_house_edge optimized_lootbox
          original_expected_value := get_expected_value original_lootbox
          optimized_expected_value := get_expected_value optimized_lootbox
          optimization_message := "Genetic algorithm completed"
          iterations := generations }

/-! Concrete fixtures used to instantiate the theorems below. -/

/-- A single item whose probability is inside the 1e-6 construction
tolerance but not exactly 1. -/
def neItem : LootboxItem :=
  ⟨"A", 1, .common, 1999999/2000000⟩

/-- A lootbox that passes construction validation with total probability
1 − 5e-7. -/
def oneItemBox : Lootbox :=
  ⟨"One", 1, [neItem]⟩

/-- A certain item of value 1.70, giving expected value 1.70. -/
def evItem : LootboxItem :=
  ⟨"EV", 17/10, .common, 1⟩

/-- A deterministic stand-in for `random.random()`: always 1/3. -/
def testNext : Unit → ℚ × Unit :=
  fun u => (1/3, u)

/-- A stand-in square-root function (its value is irrelevant to every
property proved below). -/
def zeroSqrt : ℚ → ℚ :=
  fun _ => 0

/-- A solver oracle that raises, standing for a scipy internal numeric
fault. -/
def failSolver : List ℚ → List ℚ → List ℚ → Except String SolverResult :=
  fun _ _ _ => .error "numerical fault"

/-- A deterministic numpy-random oracle over trivial state. -/
def testRng : NpRandom Unit where
  exponential := fun _ n g => (List.replicate n 1, g)
  uniform := fun g => (1/2, g)
  pick := fun _ k g => (List.range k, g)
  randintBelow := fun low _ g => (low, g)
  normal := fun _ _ n g => (List.replicate n 0, g)

/-! Helper lemmas. -/

/-- Sanity check of the end-to-end scenario: the demonstration box has
expected value 0.96. -/
theorem demoBox_expected_value : get_expected_value demoBox = 24/25 := by
  norm_num [get_expected_value, demoBox]

/-- The demonstration box passes item validation. -/
theorem demoBox_items_valid : validateItems demoBox.items = true := by
  norm_num [validateItems, totalProbability, demoBox]
  decide

/-- The demonstration box passes cost validation. -/
theorem demoBox_cost_valid : validateCost demoBox.cost = true := by
  norm_num [validateCost, demoBox]

theorem le_foldl_max (a : ℚ) (xs : List ℚ) :
    a ≤ xs.foldl max a ∧ ∀ x ∈ xs, x ≤ xs.foldl max a := by
  induction xs generalizing a with
  | nil => simp
  | cons y ys ih =>
    have h := ih (max a y)
    refine ⟨le_trans (le_max_left a y) h.1, ?_⟩
    intro x hx
    rcases List.mem_cons.mp hx with rfl | hx
    · exact le_trans (le_max_right a x) h.1
    · exact h.2 x hx

theorem foldl_max_mem (a : ℚ) (xs : List ℚ) :
    xs.foldl max a = a ∨ xs.foldl max a ∈ xs := by
  induction xs generalizing a with
  | nil => exact Or.inl rfl
  | cons y ys ih =>
    rcases ih (max a y) with h | h
    · rcases max_choice a y with hc | hc
      · left; rw [List.foldl_cons, h, hc]
      · right; rw [List.foldl_cons, h, hc]; exact List.mem_cons_self y ys
    · right
      rw [List.foldl_cons]
      exact List.mem_cons_of_mem y h

theorem foldl_min_le (a : ℚ) (xs : List ℚ) :
    xs.foldl min a ≤ a ∧ ∀ x ∈ xs, xs.foldl min a ≤ x := by
  induction xs generalizing a with
  | nil => simp
  | cons y ys ih =>
    have h := ih (min a y)
    refine ⟨le_trans h.1 (min_le_left a y), ?_⟩
    intro x hx
    rcases List.mem_cons.mp hx with rfl | hx
    · exact le_trans h.1 (min_le_right a x)
    · exact h.2 x hx

theorem foldl_min_mem (a : ℚ) (xs : List ℚ) :
    xs.foldl min a = a ∨ xs.foldl min a ∈ xs := by
  induction xs generalizing a with
  | nil => exact Or.inl rfl
  | cons y ys ih =>
    rcases ih (min a y) with h | h
    · rcases min_choice a y with hc | hc
      · left; rw [List.foldl_cons, h, hc]
      · right; rw [List.foldl_cons, h, hc]; exact List.mem_cons_self y ys
    · right
      rw [List.foldl_cons]
      exact List.mem_cons_of_mem y h

theorem le_listMaxQ {l : List ℚ} : ∀ x ∈ l, x ≤ listMaxQ l := by
  intro x hx
  cases l with
  | nil => cases hx
  | cons y ys =>
    rcases List.mem_cons.mp hx with rfl | hx
    · exact (le_foldl_max x ys).1
    · exact (le_foldl_max y ys).2 x hx

theorem listMaxQ_mem {l : List ℚ} (h : l ≠ []) : listMaxQ l ∈ l := by
  cases l with
  | nil => exact absurd rfl h
  | cons y ys =>
    show ys.foldl max y ∈ y :: ys
    rcases foldl_max_mem y ys with he | he
    · rw [he]; exact List.mem_cons_self y ys
    · exact List.mem_cons_of_mem y he

theorem listMinQ_le {l : List ℚ} : ∀ x ∈ l, listMinQ l ≤ x := by
  intro x hx
  cases l with
  | nil => cases hx
  | cons y ys =>
    rcases List.mem_cons.mp hx with rfl | hx
    · exact (foldl_min_le x ys).1
    · exact (foldl_min_le y ys).2 x hx

theorem listMinQ_mem {l : List ℚ} (h : l ≠ []) : listMinQ l ∈ l := by
  cases l with
  | nil => exact absurd rfl h
  | cons y ys =>
    show ys.foldl min y ∈ y :: ys
    rcases foldl_min_mem y ys with he | he
    · rw [he]; exact List.mem_cons_self y ys
    · exact List.mem_cons_of_mem y he

theorem ev_sum_bounds (items : List LootboxItem) (m M : ℚ)
    (h : ∀ i ∈ items, 0 ≤ i.probability ∧ m ≤ i.value ∧ i.value ≤ M) :
    m * totalProbability items ≤ (items.map fun i => i.value * i.probability).sum ∧
    (items.map fun i => i.value * i.probability).sum ≤ M * totalProbability items := by
  induction items with
  | nil => simp [totalProbability]
  | cons i rest ih =>
    obtain ⟨hp, hm, hM⟩ := h i (List.mem_cons_self i rest)
    have hr := ih fun j hj => h j (List.mem_cons_of_mem i hj)
    have htot : totalProbability (i :: rest) = i.probability + totalProbability rest := by
      simp [totalProbability]
    constructor
    · calc m * totalProbability (i :: rest)
          = m * i.probability + m * totalProbability rest := by rw [htot]; ring
        _ ≤ i.value * i.probability + (rest.map fun j => j.value * j.probability).sum :=
          add_le_add (mul_le_mul_of_nonneg_right hm hp) hr.1
        _ = ((i :: rest).map fun j => j.value * j.probability).sum := by simp
    · calc ((i :: rest).map fun j => j.value * j.probability).sum
          = i.value * i.probability + (rest.map fun j => j.value * j.probability).sum := by simp
        _ ≤ M * i.probability + M * totalProbability rest :=
          add_le_add (mul_le_mul_of_nonneg_right hM hp) hr.2
        _ = M * totalProbability (i :: rest) := by rw [htot]; ring

theorem totalProbability_nonneg (items : List LootboxItem)
    (hp : ∀ j ∈ items, 0 ≤ j.probability) : 0 ≤ totalProbability items := by
  refine List.sum_nonneg ?_
  intro x hx
  obtain ⟨j, hj, rfl⟩ := List.mem_map.mp hx
  exact hp j hj

theorem mem_prob_le_total (items : List LootboxItem)
    (hp : ∀ j ∈ items, 0 ≤ j.probability) :
    ∀ i ∈ items, i.probability ≤ totalProbability items := by
  induction items with
  | nil => intro i hi; cases hi
  | cons j rest ih =>
    intro i hi
    have htot : totalProbability (j :: rest) = j.probability + totalProbability rest := by
      simp [totalProbability]
    have hrest : ∀ x ∈ rest, 0 ≤ x.probability :=
      fun x hx => hp x (List.mem_cons_of_mem j hx)
    rcases List.mem_cons.mp hi with rfl | hi
    · have := totalProbability_nonneg rest hrest
      rw [htot]; linarith
    · have h1 := ih hrest i hi
      have h2 := hp j (List.mem_cons_self j rest)
      rw [htot]; linarith

/-- C5 (amended): for every item list passing per-item and list validation
(values strictly positive, probabilities in [0, 1] with total within 1e-6
of 1), the expected value is bounded by the minimum and maximum item value
scaled by the probability-mass tolerance:
min·(1 − 1e-6) ≤ EV ≤ max·(1 + 1e-6).  The unscaled bounds of the original
claim fail at the tolerance boundary (see the counterexample). -/
theorem expected_value_bounds (lb : Lootbox)
    (hv : ∀ i ∈ lb.items, validItem i = true)
    (hs : validateItems lb.items = true) :
    listMinQ (lb.items.map (·.value)) * (1 - 1/1000000) ≤ get_expected_value lb ∧
    get_expected_value lb ≤ listMaxQ (lb.items.map (·.value)) * (1 + 1/1000000) := by
  have hv' : ∀ i ∈ lb.items, 0 < i.value ∧ 0 ≤ i.probability ∧ i.probability ≤ 1 := by
    intro i hi
    have := hv i hi
    simpa [validItem] using this
  have hs' : (¬lb.items.isEmpty = true) ∧ |totalProbability lb.items - 1| ≤ 1/1000000 := by
    have := hs
    simp only [validateItems, Bool.and_eq_true, Bool.not_eq_true', decide_eq_true_eq] at this
    exact ⟨by simp [this.1.1], this.1.2⟩
  have hne : lb.items ≠ [] := by
    intro hnil
    exact hs'.1 (by simp [hnil])
  have hmapne : lb.items.map (·.value) ≠ [] := by
    simpa using hne
  have hT := abs_le.mp hs'.2
  set m := listMinQ (lb.items.map (·.value)) with hm
  set M := listMaxQ (lb.items.map (·.value)) with hM
  have hmpos : 0 < m := by
    obtain ⟨i, hi, hiv⟩ := List.mem_map.mp (listMinQ_mem hmapne)
    have := (hv' i hi).1
    rw [← hm] at hiv
    linarith [hiv ▸ this]
  have hMpos : 0 < M := by
    obtain ⟨i, hi, hiv⟩ := List.mem_map.mp (listMaxQ_mem hmapne)
    have := (hv' i hi).1
    rw [← hM] at hiv
    linarith [hiv ▸ this]
  have hbounds : ∀ i ∈ lb.items, 0 ≤ i.probability ∧ m ≤ i.value ∧ i.value ≤ M := by
    intro i hi
    refine ⟨(hv' i hi).2.1, ?_, ?_⟩
    · exact listMinQ_le i.value (List.mem_map_of_mem (·.value) hi)
    · exact le_listMaxQ i.value (List.mem_map_of_mem (·.value) hi)
  have hev := ev_sum_bounds lb.items m M hbounds
  have hgl : get_expected_value lb = (lb.items.map fun i => i.value * i.probability).sum := rfl
  constructor
  · have h1 : m * (1 - 1/1000000) ≤ m * totalProbability lb.items :=
      mul_le_mul_of_nonneg_left (by linarith [hT.1]) (le_of_lt hmpos)
    rw [hgl]; linarith [hev.1]
  · have h1 : M * totalProbability lb.items ≤ M * (1 + 1/1000000) :=
      mul_le_mul_of_nonneg_left (by linarith [hT.2]) (le_of_lt hMpos)
    rw [hgl]; linarith [hev.2]

/-- C5 witness: the bounds instantiated at the demonstration box. -/
theorem expected_value_bounds_witness :
    listMinQ (demoBox.items.map (·.value)) * (1 - 1/1000000) ≤ get_expected_value demoBox ∧
    get_expected_value demoBox ≤ listMaxQ (demoBox.items.map (·.value)) * (1 + 1/1000000) :=
  expected_value_bounds demoBox
    (by intro i hi; fin_cases hi <;> norm_num [validItem])
    (by norm_num [validateItems, totalProbability, demoBox]; decide)

/-- C5 counterexample: a lootbox whose construction validation passes (the
total probability is 1 − 5e-7, inside the 1e-6 tolerance) yet whose
expected value is strictly below the minimum item value, refuting the
claim's unscaled lower bound. -/
theorem expected_value_min_bound_fails :
    validItem neItem = true ∧
    validateItems oneItemBox.items = true ∧
    validateCost oneItemBox.cost = true ∧
    get_expected_value oneItemBox < listMinQ (oneItemBox.items.map (·.value)) := by
  refine ⟨by norm_num [validItem, neItem], ?_, by norm_num [validateCost, oneItemBox], ?_⟩
  · norm_num [validateItems, totalProbability, oneItemBox, neItem, abs_le]
  · norm_num [get_expected_value, oneItemBox, neItem, listMinQ]

/-- C6: for a lootbox whose cost passes the cost validator (hence is
strictly positive), the expected value is below the cost exactly when the
house edge is strictly positive. -/
theorem house_edge_sign_iff (lb : Lootbox) (h : validateCost lb.cost = true) :
    get_expected_value lb < lb.cost ↔ 0 < get_house_edge lb := by
  have h' : 1/2 ≤ lb.cost ∧ lb.cost ≤ 1000 := by
    simpa [validateCost, decide_eq_true_eq] using h
  have hc : (0 : ℚ) < lb.cost := by linarith [h'.1]
  constructor
  · intro hev
    exact div_pos (by linarith) hc
  · intro hhe
    have hmul := mul_pos hhe hc
    rw [get_house_edge, div_mul_cancel₀ _ (ne_of_gt hc)] at hmul
    linarith

/-- C6 witness: the equivalence instantiated at the demonstration box. -/
theorem house_edge_sign_iff_witness :
    get_expected_value demoBox < demoBox.cost ↔ 0 < get_house_edge demoBox :=
  house_edge_sign_iff demoBox (by norm_num [validateCost, demoBox])

/-- C7 (amended): renormalizing an item list whose probabilities are
non-negative and already sum to 1 within the 1e-6 construction tolerance
changes no individual probability by more than 1e-6 (the tolerance
itself); the original 1e-9 bound fails inside the tolerance (see the
counterexample). -/
theorem normalize_probabilities_stable (items : List LootboxItem)
    (hp : ∀ i ∈ items, 0 ≤ i.probability)
    (ht : |totalProbability items - 1| ≤ 1/1000000) :
    ∀ k, k < items.length →
      |((normalize_probabilities items).getD k dummyItem).probability -
          (items.getD k dummyItem).probability| ≤ 1/1000000 := by
  intro k hk
  have habs := abs_le.mp ht
  have hTpos : 0 < totalProbability items := by linarith [habs.1]
  have hnorm : normalize_probabilities items =
      items.map fun i => { i with probability := i.probability / totalProbability items } := by
    unfold normalize_probabilities
    rw [if_pos hTpos]
  rw [hnorm]
  have hk' : k < (items.map fun i =>
      { i with probability := i.probability / totalProbability items }).length := by
    simpa using hk
  rw [List.getD_eq_get? _ _ , List.getD_eq_get? _ _, List.get?_map,
    List.get?_eq_get hk, Option.map_some', Option.getD_some, Option.getD_some]
  set i := items.get ⟨k, hk⟩ with hidef
  have himem : i ∈ items := List.get_mem items k hk
  have hp0 : 0 ≤ i.probability := hp i himem
  have hple : i.probability ≤ totalProbability items := mem_prob_le_total items hp i himem
  set T := totalProbability items with hTdef
  have key : i.probability / T - i.probability = i.probability * (1 - T) / T := by
    field_simp
    ring
  rw [key, abs_div, abs_mul, abs_of_nonneg hp0, abs_of_pos hTpos]
  have h1 : i.probability * |1 - T| ≤ T * |1 - T| :=
    mul_le_mul_of_nonneg_right hple (abs_nonneg _)
  have h2 : i.probability * |1 - T| / T ≤ T * |1 - T| / T :=
    (div_le_div_iff_of_pos_right hTpos).mpr h1
  have h3 : T * |1 - T| / T = |1 - T| := by
    field_simp
  have h4 : |1 - T| ≤ 1/1000000 := by
    rw [abs_sub_comm]
    exact ht
  calc i.probability * |1 - T| / T ≤ T * |1 - T| / T := h2
    _ = |1 - T| := h3
    _ ≤ 1/1000000 := h4

/-- C7 witness: stability instantiated at the demonstration box's first
item. -/
theorem normalize_probabilities_stable_witness :
    |((normalize_probabilities demoBox.items).getD 0 dummyItem).probability -
        (demoBox.items.getD 0 dummyItem).probability| ≤ 1/1000000 :=
  normalize_probabilities_stable demoBox.items
    (by intro i hi; fin_cases hi <;> norm_num)
    (by norm_num [totalProbability, demoBox])
    0 (by norm_num [demoBox])

/-- C7 counterexample: a validated single-item list (total probability
1 − 5e-7) whose renormalization moves the probability by 5e-7, far more
than the claimed 1e-9. -/
theorem normalize_probabilities_exceeds_1e9 :
    validateItems oneItemBox.items = true ∧
    (1 : ℚ)/1000000000 <
      |((normalize_probabilities oneItemBox.items).getD 0 dummyItem).probability -
          (oneItemBox.items.getD 0 dummyItem).probability| := by
  constructor
  · norm_num [validateItems, totalProbability, oneItemBox, neItem, abs_le]
  · norm_num [normalize_probabilities, totalProbability, oneItemBox, neItem, dummyItem, lt_abs]

/-- C3: with any target house edge below 1, `find_optimal_cost` returns
the closed-form cost EV / (1 − target) with feasibility true when it lies
in [min_cost, max_cost], and the clamped value with feasibility false
otherwise; a feasible positive-EV solution exactly attains the target
house edge. -/
theorem find_optimal_cost_spec (items : List LootboxItem)
    (probabilities : List ℚ) (target_house_edge min_cost max_cost : ℚ)
    (h : target_house_edge < 1) :
    (min_cost ≤ zipExpectedValue items probabilities / (1 - target_house_edge) ∧
        zipExpectedValue items probabilities / (1 - target_house_edge) ≤ max_cost →
      find_optimal_cost items probabilities target_house_edge min_cost max_cost =
        (zipExpectedValue items probabilities / (1 - target_house_edge), true)) ∧
    (¬(min_cost ≤ zipExpectedValue items probabilities / (1 - target_house_edge) ∧
        zipExpectedValue items probabilities / (1 - target_house_edge) ≤ max_cost) →
      find_optimal_cost items probabilities target_house_edge min_cost max_cost =
        (max min_cost
          (min max_cost (zipExpectedValue items probabilities / (1 - target_house_edge))),
         false)) ∧
    (0 < zipExpectedValue items probabilities →
      (zipExpectedValue items probabilities / (1 - target_house_edge) -
          zipExpectedValue items probabilities) /
        (zipExpectedValue items probabilities / (1 - target_house_edge)) =
        target_house_edge) := by
  have hne : ¬(1 ≤ target_house_edge) := not_le.mpr h
  refine ⟨?_, ?_, ?_⟩
  · intro hin
    simp only [find_optimal_cost, if_neg hne, if_pos hin]
  · intro hout
    simp only [find_optimal_cost, if_neg hne, if_neg hout]
  · intro hev
    have h1 : (1 : ℚ) - target_house_edge ≠ 0 := by linarith
    have h2 : zipExpectedValue items probabilities ≠ 0 := ne_of_gt hev
    field_simp
    ring

/-- C3 witness: for expected value 1.70 and target 0.15 with bounds
[0.5, 4.0], the returned cost is exactly 2.0 and feasible. -/
theorem find_optimal_cost_witness :
    find_optimal_cost [evItem] [1] (3/20) (1/2) 4 = (2, true) := by
  have hev : zipExpectedValue [evItem] [1] = 17/10 := by
    norm_num [zipExpectedValue, evItem]
  have h := (find_optimal_cost_spec [evItem] [1] (3/20) (1/2) 4 (by norm_num)).1
  rw [hev] at h
  have h2 := h (by norm_num)
  rw [h2]
  norm_num [hev]

/-- The pick loop of a single opening equals an indexed lookup at the
first position where the running cumulative mass reaches the drawn
number. -/
theorem pickItem_eq (items : List LootboxItem) (u : ℚ) : ∀ acc : ℚ,
    pickItem items u acc =
      items.get? ((cumFrom acc (items.map (·.probability))).findIdx
        fun c => decide (u ≤ c)) := by
  induction items with
  | nil => intro acc; rfl
  | cons item rest ih =>
    intro acc
    simp only [pickItem, cumFrom, List.map_cons, List.findIdx_cons]
    by_cases hc : u ≤ acc + item.probability
    · simp [hc]
    · simp only [decide_eq_true_eq, hc, decide_False, Bool.cond_false]
      rw [ih (acc + item.probability)]
      rfl

/-- C4: a single opening of a lootbox with a non-empty item list always
succeeds and returns a model item — namely the item at the first index
whose cumulative probability mass reaches the drawn number, and the last
item when the accumulated mass never reaches it. -/
theorem draw_one_total_first_hit (lb : Lootbox) (u : ℚ) (h : lb.items ≠ []) :
    simulate_single_opening lb u =
      .ok (lb.items.getD
        ((cumsum (lb.items.map (·.probability))).findIdx fun c => decide (u ≤ c))
        (lb.items.getLast h)) ∧
    ∀ item, simulate_single_opening lb u = .ok item → item ∈ lb.items := by
  have hp := pickItem_eq lb.items u 0
  have hcum : cumsum (lb.items.map (·.probability)) =
      cumFrom 0 (lb.items.map (·.probability)) := rfl
  have hmain : simulate_single_opening lb u =
      .ok (lb.items.getD
        ((cumsum (lb.items.map (·.probability))).findIdx fun c => decide (u ≤ c))
        (lb.items.getLast h)) := by
    unfold simulate_single_opening
    rw [hp, hcum]
    set j := (cumFrom 0 (lb.items.map (·.probability))).findIdx
      fun c => decide (u ≤ c) with hj
    rcases Nat.lt_or_ge j lb.items.length with hjl | hjl
    · rw [List.get?_eq_get hjl]
      rw [List.getD_eq_get? , List.get?_eq_get hjl]
      rfl
    · rw [List.get?_eq_none.mpr hjl]
      rw [List.getLast?_eq_getLast _ h]
      rw [List.getD_eq_get?, List.get?_eq_none.mpr hjl]
      rfl
  refine ⟨hmain, ?_⟩
  intro item hitem
  rw [hmain] at hitem
  have : lb.items.getD
      ((cumsum (lb.items.map (·.probability))).findIdx fun c => decide (u ≤ c))
      (lb.items.getLast h) = item := by
    injection hitem
  rw [← this]
  rw [List.getD_eq_get?]
  cases hq : lb.items.get? ((cumsum (lb.items.map (·.probability))).findIdx
      fun c => decide (u ≤ c)) with
  | none => simpa using List.getLast_mem h
  | some it =>
    have := List.get?_mem hq
    simpa using this

/-- C4 witness: a concrete draw from the demonstration box lands on the
first item, and membership holds. -/
theorem draw_one_witness :
    simulate_single_opening demoBox (1/3) = .ok ⟨"A", 1/10, .common, 1/2⟩ ∧
    (∀ item, simulate_single_opening demoBox (1/3) = .ok item → item ∈ demoBox.items) :=
  ⟨by norm_num [simulate_single_opening, pickItem, demoBox],
   (draw_one_total_first_hit demoBox (1/3) (by decide)).2⟩

/-- C8: two simulator constructions with the same seed overwrite the
global random state identically, so the two runs produce identical draw
sequences (including final states) for the same lootbox and draw count,
regardless of the global states they started from. -/
theorem deterministic_replay (σ : Type) (seedFn : Nat → σ) (next : σ → ℚ × σ)
    (lb : Lootbox) (n s : Nat) (g1 g2 : σ) :
    drawItems next lb n (mkSimulator seedFn (some s) g1) =
    drawItems next lb n (mkSimulator seedFn (some s) g2) := rfl

/-- The spec-side scan equals an indexed lookup at the first position
where the cumulative mass strictly exceeds the target. -/
theorem firstMass_eq (l : List (ℚ × ℚ)) (t : ℚ) : ∀ acc : ℚ,
    firstMassExceeding t l acc =
      (l.map Prod.fst).get? ((cumFrom acc (l.map Prod.snd)).findIdx
        fun c => decide (t < c)) := by
  induction l with
  | nil => intro acc; rfl
  | cons hd rest ih =>
    obtain ⟨v, pr⟩ := hd
    intro acc
    simp only [firstMassExceeding, cumFrom, List.map_cons, List.findIdx_cons]
    by_cases hc : t < acc + pr
    · simp [hc]
    · simp only [decide_eq_true_eq, hc, decide_False, Bool.cond_false]
      rw [ih (acc + pr)]
      rfl

/-- Tuple order implies order on first components. -/
theorem pairLE_fst_le {x y : ℚ × ℚ} (h : pairLE x y) : x.1 ≤ y.1 := by
  rcases h with h | ⟨h, _⟩
  · exact le_of_lt h
  · exact le_of_eq h

/-- In a list sorted by the tuple order, every element's first component
is at most that of the last element. -/
theorem sorted_fst_le_getLast :
    ∀ (l : List (ℚ × ℚ)) (hl : l ≠ []), l.Sorted pairLE →
      ∀ x ∈ l, x.1 ≤ (l.getLast hl).1 := by
  intro l
  induction l with
  | nil => intro hl; exact absurd rfl hl
  | cons a rest ih =>
    intro hl hs x hx
    cases rest with
    | nil =>
      rcases List.mem_cons.mp hx with rfl | hx
      · exact le_refl _
      · cases hx
    | cons b t =>
      have hbt : b :: t ≠ [] := by simp
      have hgl : (a :: b :: t).getLast hl = (b :: t).getLast hbt :=
        List.getLast_cons hbt
      rcases List.mem_cons.mp hx with rfl | hx
      · have hmem : (b :: t).getLast hbt ∈ b :: t := List.getLast_mem hbt
        have hrel := (List.sorted_cons.mp hs).1 _ hmem
        rw [hgl]
        exact pairLE_fst_le hrel
      · have := ih hbt (List.sorted_cons.mp hs).2 x hx
        rw [hgl]
        exact this

/-- The last first-component of the sorted pair list is the maximum of the
original first components. -/
theorem sortPairs_last_fst (pairs : List (ℚ × ℚ)) (h : pairs ≠ []) :
    ((sortPairs pairs).map Prod.fst).getD
        (((sortPairs pairs).map Prod.fst).length - 1) 0 =
      listMaxQ (pairs.map Prod.fst) := by
  have hperm : List.Perm (sortPairs pairs) pairs := List.perm_insertionSort pairLE pairs
  have hsorted : (sortPairs pairs).Sorted pairLE :=
    List.sorted_insertionSort pairLE pairs
  have hne : sortPairs pairs ≠ [] := by
    intro hnil
    rw [hnil] at hperm
    exact h (List.Perm.nil_eq hperm).symm
  have hlen : 0 < (sortPairs pairs).length := List.length_pos.mpr hne
  have hmaplen : ((sortPairs pairs).map Prod.fst).length = (sortPairs pairs).length :=
    List.length_map _ _
  have hidx : (sortPairs pairs).length - 1 < (sortPairs pairs).length :=
    Nat.sub_lt hlen one_pos
  have hgetD : ((sortPairs pairs).map Prod.fst).getD
      (((sortPairs pairs).map Prod.fst).length - 1) 0 =
      ((sortPairs pairs).getLast hne).1 := by
    rw [List.getD_eq_get?, List.get?_map, hmaplen]
    show (((sortPairs pairs).get? ((sortPairs pairs).length - 1)).map Prod.fst).getD 0 =
      ((sortPairs pairs).getLast hne).1
    rw [List.get?_eq_get hidx]
    simp [List.getLast_eq_get]
  rw [hgetD]
  have h1 : ((sortPairs pairs).getLast hne).1 ≤ listMaxQ (pairs.map Prod.fst) := by
    have hmem : (sortPairs pairs).getLast hne ∈ sortPairs pairs := List.getLast_mem hne
    exact le_listMaxQ _ (List.mem_map_of_mem Prod.fst (hperm.mem_iff.mp hmem))
  have h2 : listMaxQ (pairs.map Prod.fst) ≤ ((sortPairs pairs).getLast hne).1 := by
    have hmapne : pairs.map Prod.fst ≠ [] := by simpa using h
    obtain ⟨pr, hpr, hfst⟩ := List.mem_map.mp (listMaxQ_mem hmapne)
    rw [← hfst]
    exact sorted_fst_le_getLast (sortPairs pairs) hne hsorted pr (hperm.mem_iff.mpr hpr)
  exact le_antisymm h1 h2

/-- C1: for every lootbox with a non-empty item list (and the non-negative
probabilities a validated model carries), each requested percentile is
reported as the value of the first value-sorted item whose cumulative
probability mass strictly exceeds p/100, and as the maximum item value
when no cumulative mass does. -/
theorem value_percentiles_spec (lb : Lootbox) (targets : List ℚ)
    (hne : lb.items ≠ []) (hpr : ∀ i ∈ lb.items, 0 ≤ i.probability) :
    calculate_value_percentiles lb targets =
      targets.map fun p => (p, specPercentileValue lb p) := by
  unfold calculate_value_percentiles
  rw [List.map_eq_map_iff]
  intro p hp
  have key : percTargetValue
      ((sortPairs ((lb.items.map (·.value)).zip (lb.items.map (·.probability)))).map Prod.fst)
      (cumsum ((sortPairs ((lb.items.map (·.value)).zip (lb.items.map (·.probability)))).map Prod.snd))
      p = specPercentileValue lb p := by
    simp only [specPercentileValue, percTargetValue]
    set sd := sortPairs ((lb.items.map (·.value)).zip (lb.items.map (·.probability)))
      with hsd
    have hfm := firstMass_eq sd (p / 100) 0
    have hjdef : searchsortedRight (cumsum (sd.map Prod.snd)) (p / 100) =
        (cumFrom 0 (sd.map Prod.snd)).findIdx fun c => decide (p / 100 < c) := rfl
    set j := (cumFrom 0 (sd.map Prod.snd)).findIdx fun c => decide (p / 100 < c)
      with hj
    cases hq : (sd.map Prod.fst).get? j with
    | some v =>
      obtain ⟨hlt, hget⟩ := List.get?_eq_some.mp hq
      rw [hfm, hq, hjdef, if_pos hlt, List.getD_eq_get?, hq]
      rfl
    | none =>
      have hjge : (sd.map Prod.fst).length ≤ j := List.get?_eq_none.mp hq
      rw [hfm, hq, hjdef, if_neg (not_lt.mpr hjge)]
      have hzipne : (lb.items.map (·.value)).zip (lb.items.map (·.probability)) ≠ [] := by
        rw [List.zip_map']
        simpa using hne
      have hlast := sortPairs_last_fst
        ((lb.items.map (·.value)).zip (lb.items.map (·.probability))) hzipne
      rw [← hsd] at hlast
      have hfstmap : ((lb.items.map (·.value)).zip (lb.items.map (·.probability))).map Prod.fst =
          lb.items.map (·.value) := by
        rw [List.zip_map']
        rw [List.map_map]
        rfl
      rw [hfstmap] at hlast
      exact hlast
  rw [key]

/-- C1 witness: the percentile rule instantiated at the demonstration box
for three targets. -/
theorem value_percentiles_witness :
    calculate_value_percentiles demoBox [5, 50, 95] =
      [(5, specPercentileValue demoBox 5),
       (50, specPercentileValue demoBox 50),
       (95, specPercentileValue demoBox 95)] :=
  value_percentiles_spec demoBox [5, 50, 95] (by decide)
    (by intro i hi; fin_cases hi <;> norm_num)

/-- A successful draw loop returns exactly as many items as requested. -/
theorem drawItems_length {σ : Type} (next : σ → ℚ × σ) (lb : Lootbox) :
    ∀ (n : Nat) (g : σ) (items : List LootboxItem) (g' : σ),
      drawItems next lb n g = .ok (items, g') → items.length = n := by
  intro n
  induction n with
  | zero =>
    intro g items g' h
    simp only [drawItems] at h
    cases h
    rfl
  | succ k ih =>
    intro g items g' h
    simp only [drawItems] at h
    cases hso : simulate_single_opening lb (next g).1 with
    | error e => rw [hso] at h; cases h
    | ok item =>
      rw [hso] at h
      cases hrest : drawItems next lb k (next g).2 with
      | error e => rw [hrest] at h; cases h
      | ok restg =>
        obtain ⟨rest, g2⟩ := restg
        rw [hrest] at h
        cases h
        have := ih _ rest _ hrest
        simp [this]

/-- C9: whenever the bulk simulation succeeds, the empirical profit
probability (draws strictly above cost) never exceeds the empirical
break-even probability (draws at or above cost). -/
theorem profit_le_break_even {σ : Type} (next : σ → ℚ × σ) (sqrtFn : ℚ → ℚ)
    (lb : Lootbox) (n : Nat) (g : σ) (pb : ℚ × ℚ)
    (h : (simulate_multiple_openings next sqrtFn lb n g).map
          (fun pr => (pr.1.profit_probability, pr.1.break_even_probability)) =
        .ok pb) :
    pb.1 ≤ pb.2 := by
  unfold simulate_multiple_openings at h
  cases hd : drawItems next lb n g with
  | error e =>
    rw [hd] at h
    simp [Except.map] at h
  | ok itemsg =>
    obtain ⟨obtained_items, g'⟩ := itemsg
    rw [hd] at h
    by_cases hemp : (obtained_items.map (·.value)).isEmpty
    · simp [hemp, Except.map] at h
    · have hemp' : (obtained_items.map (·.value)).isEmpty = false :=
        Bool.not_eq_true _ |>.mp hemp
      cases hm : statMedian (obtained_items.map (·.value)) with
      | error e => simp [hm, hemp', Except.map] at h
      | ok med =>
        simp only [hemp', Bool.false_eq_true, if_false, hm, Except.map] at h
        have hpb : pb =
            ((((obtained_items.map (·.value)).filter
                  (fun v => decide (lb.cost < v))).length : ℚ) / (n : ℚ),
             (((obtained_items.map (·.value)).filter
                  (fun v => decide (lb.cost ≤ v))).length : ℚ) / (n : ℚ)) := by
          cases h
          rfl
        have hlenpos : 0 < n := by
          rcases Nat.eq_zero_or_pos n with rfl | hn
          · have hlen := drawItems_length next lb 0 g obtained_items g' hd
            have hnil : obtained_items = [] := List.length_eq_zero.mp hlen
            rw [hnil] at hemp
            simp at hemp
          · exact hn
        have hcount : ((obtained_items.map (·.value)).filter
              (fun v => decide (lb.cost < v))).length ≤
            ((obtained_items.map (·.value)).filter
              (fun v => decide (lb.cost ≤ v))).length := by
          refine List.Sublist.length_le ?_
          refine List.monotone_filter_right _ ?_
          intro a ha
          exact decide_eq_true (le_of_lt (of_decide_eq_true ha))
        rw [hpb]
        have hnq : (0 : ℚ) < (n : ℚ) := by exact_mod_cast hlenpos
        have hc : (((obtained_items.map (·.value)).filter
              (fun v => decide (lb.cost < v))).length : ℚ) ≤
            (((obtained_items.map (·.value)).filter
              (fun v => decide (lb.cost ≤ v))).length : ℚ) := by
          exact_mod_cast hcount
        exact (div_le_div_iff_of_pos_right hnq).mpr hc

/-- C9 witness: one concrete single-draw simulation of the demonstration
box, whose profit and break-even probabilities are both 0. -/
theorem profit_le_break_even_witness :
    ((0 : ℚ), (0 : ℚ)).1 ≤ ((0 : ℚ), (0 : ℚ)).2 :=
  profit_le_break_even testNext zeroSqrt demoBox 1 () (0, 0)
    (by norm_num [simulate_multiple_openings, drawItems, testNext,
      simulate_single_opening, pickItem, demoBox, statMedian, sortQ,
      List.insertionSort, List.orderedInsert, listMean, Except.map])

/-- C10: a confidence-interval request for fewer than 1000 draws runs zero
batches (integer division by the fixed batch size) and then fails by
taking a percentile of an empty metric list, whatever the random source,
lootbox, state, and confidence level. -/
theorem confidence_intervals_small_n {σ : Type} (next : σ → ℚ × σ)
    (sqrtFn : ℚ → ℚ) (lb : Lootbox) (num_simulations : Nat)
    (confidence_level : ℚ) (g : σ) (h : num_simulations < 1000) :
    isError (calculate_confidence_intervals next sqrtFn lb num_simulations
      confidence_level g) = true := by
  have h0 : num_simulations / 1000 = 0 := Nat.div_eq_of_lt h
  simp only [calculate_confidence_intervals, h0]
  rfl

/-- C10 witness: 500 requested draws fail. -/
theorem confidence_intervals_small_n_witness :
    isError (calculate_confidence_intervals testNext zeroSqrt demoBox 500
      (19/20) ()) = true :=
  confidence_intervals_small_n testNext zeroSqrt demoBox 500 (19/20) ()
    (by decide)

/-- C2 (amended): the gradient-constrained search converts every solver
outcome into a returned result — a raised solver fault becomes a failed
result carrying the fault message, ordinary non-convergence becomes a
failed result carrying the solver's reason, and a fault raised while
rebuilding the optimized items is likewise caught — so
`optimize_for_house_edge` never propagates an exception.  The
genetic-algorithm search has no such boundary (see the counterexample). -/
theorem optimizer_boundary_catches (lb : Lootbox) (target_house_edge : ℚ)
    (cons : OptimizationConstraints)
    (solverFn : List ℚ → List ℚ → List ℚ → Except String SolverResult) :
    (∀ e,
      solverFn (lb.items.map (·.probability)) (tierLowerBounds cons lb.items)
          (tierUpperBounds cons lb.items) = .error e →
      optimize_for_house_edge lb target_house_edge cons solverFn =
        { success := false
          optimized_lootbox := none
          original_house_edge := get_house_edge lb
          optimized_house_edge := get_house_edge lb
          original_expected_value := get_expected_value lb
          optimized_expected_value := get_expected_value lb
          optimization_message := "Optimization error: " ++ e
          iterations := 0 }) ∧
    (∀ sr : SolverResult,
      solverFn (lb.items.map (·.probability)) (tierLowerBounds cons lb.items)
          (tierUpperBounds cons lb.items) = .ok sr →
      sr.success = false →
      optimize_for_house_edge lb target_house_edge cons solverFn =
        { success := false
          optimized_lootbox := none
          original_house_edge := get_house_edge lb
          optimized_house_edge := get_house_edge lb
          original_expected_value := get_expected_value lb
          optimized_expected_value := get_expected_value lb
          optimization_message := "Optimization failed: " ++ sr.message
          iterations := sr.nit }) ∧
    (∀ (sr : SolverResult) (e : String),
      solverFn (lb.items.map (·.probability)) (tierLowerBounds cons lb.items)
          (tierUpperBounds cons lb.items) = .ok sr →
      sr.success = true →
      buildItems lb.items sr.x = .error e →
      optimize_for_house_edge lb target_house_edge cons solverFn =
        { success := false
          optimized_lootbox := none
          original_house_edge := get_house_edge lb
          optimized_house_edge := get_house_edge lb
          original_expected_value := get_expected_value lb
          optimized_expected_value := get_expected_value lb
          optimization_message := "Optimization error: " ++ e
          iterations := 0 }) := by
  refine ⟨?_, ?_, ?_⟩
  · intro e he
    simp only [optimize_for_house_edge]
    rw [he]
  · intro sr hsr hfail
    simp only [optimize_for_house_edge]
    rw [hsr]
    simp only [hfail, Bool.false_eq_true, if_false]
  · intro sr e hsr hok hbuild
    simp only [optimize_for_house_edge]
    rw [hsr]
    simp only [hok, if_true]
    rw [hbuild]

/-- C2 witness: a solver oracle that raises is converted into a failed
result with an explanatory message. -/
theorem optimizer_boundary_witness :
    optimize_for_house_edge demoBox (3/20) defaultConstraints failSolver =
      { success := false
        optimized_lootbox := none
        original_house_edge := get_house_edge demoBox
        optimized_house_edge := get_house_edge demoBox
        original_expected_value := get_expected_value demoBox
        optimized_expected_value := get_expected_value demoBox
        optimization_message := "Optimization error: numerical fault"
        iterations := 0 } :=
  (optimizer_boundary_catches demoBox (3/20) defaultConstraints failSolver).1
    "numerical fault" rfl

/-- C2 counterexample: a genetic-algorithm call on a validated item list
(zero generations requested, as the claim quantifies over every optimizer
call) leaves the best individual unset and raises a `TypeError` that
propagates to the caller, refuting the claim that no optimizer call lets
an exception escape. -/
theorem genetic_algorithm_raises :
    validateItems demoBox.items = true ∧
    isError ((genetic_algorithm_optimization testRng demoBox.items 2 (3/20)
      3 0 (1/10) defaultConstraints).run ()) = true := by
  constructor
  · norm_num [validateItems, totalProbability, demoBox]
    decide
  · rfl
